import Mathlib

/-!
Shallow embedding of the navigation/action core of the `rust-file-explorer`
repository (`src/fs_utils.rs` and `src/app.rs`).

Filesystem effects are modelled by an explicit oracle (`Fs`): each of the
three OS calls the code makes (`fs::read_dir` iteration,
`FileNode::from_relative_path`, `fs::read_to_string`) is a field of the
oracle, so the state machine `post_update` becomes a pure function of the
oracle, the state and the action.  A `panic!`/`expect`/out-of-bounds index
in the Rust code is modelled by returning `none`.
-/

namespace Explorer

/-- The kind of a `std::io::Error`, as far as the code inspects it
(`e.kind() == std::io::ErrorKind::PermissionDenied`). -/
inductive IOErrorKind where
  | notFound
  | permissionDenied
  | other
deriving DecidableEq, Repr

/-- A `std::io::Error`, reduced to the data the program reads from it. -/
structure IOError where
  kind : IOErrorKind
deriving DecidableEq, Repr

/-- `FileNode` from `src/fs_utils.rs`: one filesystem entry as shown in the
tree.  Field names follow the Rust struct. -/
structure FileNode where
  file_name : String
  absolute_path : String
  parent_folder : Option String
  is_dir : Bool
  matches_filters : Bool
  file_size : String
  created_at : String
  modified_at : String
  accessed_at : String
deriving DecidableEq, Repr

/-- Outcome of one step of the `for entry_result in entries` loop of
`read_dir` in `src/fs_utils.rs`:
* `entryErr` — the `ReadDir` iterator itself yielded `Err(_)`;
* `buildErr k` — `FileNode::from_relative_path` failed with error kind `k`;
* `node n` — the entry was successfully built into `n`. -/
inductive DirEntryOutcome where
  | entryErr
  | buildErr (kind : IOErrorKind)
  | node (n : FileNode)
deriving DecidableEq, Repr

/-- The filesystem oracle: the responses of the three OS calls made by the
code, one field per call site. -/
structure Fs where
  /-- `fs::read_dir(path)` together with the per-entry outcomes of iterating
  it and running `FileNode::from_relative_path` on each entry path. -/
  raw_read_dir : String → Except IOError (List DirEntryOutcome)
  /-- `fs::read_to_string(path)`. -/
  read_to_string : String → Except IOError String
  /-- `FileNode::from_relative_path(path)` for paths not coming from a
  directory listing (used by the `GoBack` arm). -/
  from_relative_path : String → Except IOError FileNode

/-! ### Sorting (`nodes.sort_by` comparator in `read_dir`)

String operations are modelled on `List Char`: Rust compares `String`s by
their UTF-8 bytes, and byte-wise lexicographic order on UTF-8 coincides
with code-point-wise lexicographic order. -/

/-- Lexicographic `≤` on character lists (Rust `str::cmp` being `Less` or
`Equal`). -/
def lexLE : List Char → List Char → Bool
  | [], _ => true
  | _ :: _, [] => false
  | a :: as, b :: bs => if a < b then true else if b < a then false else lexLE as bs

/-- Rust `str::to_lowercase`, as a character list. -/
def lowerList (s : String) : List Char :=
  s.toList.map Char.toLower

/-- `file_name.to_lowercase()` of a node. -/
def lowerName (n : FileNode) : List Char :=
  lowerList n.file_name

/-- The comparator of `nodes.sort_by` in `read_dir`, expressed as the
"less-or-equivalent" Boolean relation (`Ordering::Less` or
`Ordering::Equal`): directories before files, otherwise case-insensitive
lexicographic on `file_name`. -/
def nodeLE (a b : FileNode) : Bool :=
  if a.is_dir && !b.is_dir then true
  else if !a.is_dir && b.is_dir then false
  else lexLE (lowerName a) (lowerName b)

/-- `nodeLE` as a relation. -/
def rle (a b : FileNode) : Prop :=
  nodeLE a b = true

instance : DecidableRel rle := fun a b => instDecidableEqBool (nodeLE a b) true

/-- Rust's `sort_by` is a stable sort; a stable sort producing an order
nondecreasing under the comparator is modelled by insertion sort with the
same comparator. -/
def sortNodes (l : List FileNode) : List FileNode :=
  List.insertionSort rle l

/-- Two nodes the comparator considers equal (`Ordering::Equal`). -/
def equivB (a b : FileNode) : Bool :=
  nodeLE a b && nodeLE b a

/-! ### `read_dir` (`src/fs_utils.rs`) -/

/-- The accumulation loop of `read_dir`: returns the nodes pushed so far
and whether the loop ran to completion.  An `entryErr` makes the Rust code
`return Ok(nodes)` immediately (flag `false`); a `buildErr` is skipped with
`continue` whatever its kind. -/
def collectNodes : List DirEntryOutcome → List FileNode × Bool
  | [] => ([], true)
  | .entryErr :: _ => ([], false)
  | .buildErr _ :: rest => collectNodes rest
  | .node n :: rest =>
    let r := collectNodes rest
    (n :: r.1, r.2)

/-- `read_dir` from `src/fs_utils.rs`.  If `fs::read_dir` itself fails the
function returns `Ok` of an empty list; if the entry iterator fails mid-way
the nodes accumulated so far are returned *without* reaching the final
`sort_by`; on normal completion the nodes are sorted. -/
def read_dir (fs : Fs) (path : String) : Except IOError (List FileNode) :=
  match fs.raw_read_dir path with
  | .error _ => .ok []
  | .ok entries =>
    let r := collectNodes entries
    if r.2 then .ok (sortNodes r.1) else .ok r.1

/-- Specification-side helper: the nodes of a listing, every successfully
built entry kept and every failed entry skipped, in traversal order. -/
def builtNodes (entries : List DirEntryOutcome) : List FileNode :=
  entries.filterMap fun e =>
    match e with
    | .node n => some n
    | _ => none

/-- Whether no iterator-level entry error occurs in a listing. -/
def noEntryErr (entries : List DirEntryOutcome) : Bool :=
  entries.all fun e =>
    match e with
    | .entryErr => false
    | _ => true

/-! ### `determine_file_type` (`src/fs_utils.rs`) -/

/-- The final component of a path (Rust `Path::file_name`, for the paths the
program builds). -/
def lastComponent (path : String) : String :=
  ((path.splitOn "/").getLast?).getD path

/-- Rust `Path::extension` on a file name: the portion after the last `.`,
none when there is no `.` or the only `.` is the leading one. -/
def extensionOf (name : String) : Option String :=
  match name.splitOn "." with
  | [] => none
  | [_] => none
  | ["", _] => none
  | parts => parts.getLast?

/-- `determine_file_type` from `src/fs_utils.rs`: the extension of the path,
as a string. -/
def determine_file_type (path : String) : Option String :=
  extensionOf (lastComponent path)

/-! ### Application state and actions (`src/app.rs`) -/

/-- `Filters` from `src/app.rs`.  The `file_filter_handle` abort handle is
timer bookkeeping; it is modelled separately by `SchedState` below, so only
the search text lives here. -/
structure Filters where
  file_name_search : String
deriving DecidableEq, Repr

/-- `FileExplorerApp` from `src/app.rs`, restricted to the fields the
navigation core reads or writes.  The purely graphical fields
(`system_color_mode`, `panes`, `highlighting`) and the timer handle are
never consulted by the logic modelled here and are omitted. -/
structure FileExplorerApp where
  opened_dir : FileNode
  opened_file : Option FileNode
  opened_file_contents : Except IOError String
  opened_file_type : Option String
  files : List FileNode
  filters : Filters
  file_info_modal_node : Option FileNode
  file_info_modal_open : Bool

/-- `ContextMenuAction` from `src/app.rs`. -/
inductive ContextMenuAction where
  | OpenFileInfoModal (index : Nat)

/-- `Action` from `src/app.rs`.  `PanesResized`'s payload only touches the
omitted pane-grid state. -/
inductive Action where
  | OpenFile (index : Nat)
  | CloseFile
  | GoBack
  | DebouncedSearch (text : String)
  | SearchByFilename (text : String)
  | PanesResized
  | OpenContextMenu (a : ContextMenuAction)
  | CloseFileInfoModal

/-- Whether the needle matches at the head of the haystack. -/
def headMatch : List Char → List Char → Bool
  | [], _ => true
  | _ :: _, [] => false
  | c :: cs, d :: ds => c == d && headMatch cs ds

/-- Rust `str::contains(&str)`: whether the needle occurs contiguously
somewhere in the haystack. -/
def subMatch (needle : List Char) : List Char → Bool
  | [] => needle.isEmpty
  | c :: t => headMatch needle (c :: t) || subMatch needle t

/-- Rust `str::trim`: strip whitespace from both ends. -/
def trimChars (s : List Char) : List Char :=
  ((s.dropWhile (·.isWhitespace)).reverse.dropWhile (·.isWhitespace)).reverse

/-- The per-node search predicate of the `SearchByFilename` arm:
`file_name.to_lowercase().contains(&text.trim().to_lowercase())`. -/
def matchesSearch (text : String) (file : FileNode) : Bool :=
  subMatch ((trimChars text.toList).map Char.toLower) (lowerName file)

/-- The guard at the top of `FileExplorerApp::open_file`: the clicked node
has the same `absolute_path` as the currently opened file. -/
def samePath (s : FileExplorerApp) (file : FileNode) : Bool :=
  match s.opened_file with
  | some f => f.absolute_path == file.absolute_path
  | none => false

/-- `FileExplorerApp::open_file` from `src/app.rs`.  Re-opening the already
open file returns early; a directory clears the search text and, when
`read_dir` succeeds, replaces `opened_dir` and `files`; a file is recorded
in `opened_file` with its read result in `opened_file_contents`, and the
file type is recomputed only when the read succeeded. -/
def open_file (fs : Fs) (s : FileExplorerApp) (file : FileNode) : FileExplorerApp :=
  if samePath s file then s
  else if file.is_dir then
    let s1 := { s with filters := { file_name_search := "" } }
    match read_dir fs file.absolute_path with
    | .error _ => s1
    | .ok v => { s1 with opened_dir := file, files := v }
  else
    let contents := fs.read_to_string file.absolute_path
    let s1 := { s with opened_file := some file, opened_file_contents := contents }
    match contents with
    | .error _ => s1
    | .ok _ => { s1 with opened_file_type := determine_file_type file.absolute_path }

/-- `FileExplorerApp::open_child_file` from `src/app.rs`: `&self.files[index]`
is an unchecked index, so an out-of-range index panics (`none`). -/
def open_child_file (fs : Fs) (s : FileExplorerApp) (index : Nat) :
    Option FileExplorerApp :=
  match s.files.get? index with
  | none => none
  | some file => some (open_file fs s file)

/-- `FileExplorerApp::post_update` from `src/app.rs`, as a function of the
filesystem oracle; `none` models a panic.  The `GoBack` arm calls
`.expect("Could not read parent file")` on `from_relative_path`, hence
panics when that call fails.  The `DebouncedSearch` arm stores the search
text; its timer scheduling is modelled by `SchedState` below. -/
def post_update (fs : Fs) (s : FileExplorerApp) (action : Action) :
    Option FileExplorerApp :=
  match action with
  | .OpenFile index => open_child_file fs s index
  | .CloseFile =>
    some { s with opened_file := none, opened_file_contents := .ok "",
                  opened_file_type := none }
  | .GoBack =>
    match s.opened_dir.parent_folder with
    | some parent =>
      match fs.from_relative_path parent with
      | .ok parentNode => some (open_file fs s parentNode)
      | .error _ => none
    | none => some s
  | .DebouncedSearch text =>
    some { s with filters := { file_name_search := text } }
  | .SearchByFilename text =>
    some { s with files := s.files.map fun file =>
      { file with matches_filters := matchesSearch text file } }
  | .PanesResized => some s
  | .OpenContextMenu (.OpenFileInfoModal index) =>
    some { s with file_info_modal_node := s.files.get? index,
                  file_info_modal_open := true }
  | .CloseFileInfoModal =>
    some { s with file_info_modal_open := false, file_info_modal_node := none }

/-! ### Debounce timer model (`Action::DebouncedSearch` arm)

The arm aborts the handle stored in `filters.file_filter_handle`, creates a
new delayed task that will deliver `SearchByFilename(text)`, and stores the
new abort handle.  The runtime's documented abort semantics — an aborted
task never runs — is modelled by a pending-timer pool keyed by fresh ids:
`abort` removes the timer from the pool, and only pooled timers can fire. -/

/-- State of the debounce scheduler: the abort handle stored in the
application (`app_handle`), the pool of pending timers with their payloads,
a fresh-id counter, and the payloads of the `SearchByFilename` actions
delivered so far. -/
structure SchedState where
  app_handle : Option Nat
  pending : List (Nat × String)
  next_id : Nat
  fired : List String

/-- The `DebouncedSearch` arm's timer bookkeeping: abort the stored handle
(remove its timer from the pool), create a fresh timer carrying `text`, and
store its handle. -/
def schedule (d : SchedState) (text : String) : SchedState :=
  let aborted :=
    match d.app_handle with
    | some h => d.pending.filter fun p => p.1 ≠ h
    | none => d.pending
  { app_handle := some d.next_id
    pending := aborted ++ [(d.next_id, text)]
    next_id := d.next_id + 1
    fired := d.fired }

/-- A timer attempting to elapse: it delivers its `SearchByFilename` payload
only if it is still in the pool (i.e. was never aborted), and leaves the
scheduler unchanged otherwise. -/
def fire (d : SchedState) (id : Nat) : SchedState :=
  match d.pending.find? fun p => p.1 == id with
  | none => d
  | some p =>
    { d with pending := d.pending.filter fun q => q.1 ≠ id,
             fired := d.fired ++ [p.2] }

/-- Scheduler invariant: every pending timer is the one whose abort handle
the application currently stores (hence at most one is pending), and its id
is below the fresh-id counter. -/
def DebInv (d : SchedState) : Prop :=
  ∀ p ∈ d.pending, some p.1 = d.app_handle ∧ p.1 < d.next_id

/-! ### Concrete fixtures shared by witnesses and counterexamples -/

/-- A concrete `FileNode` with the given name, path and directory flag. -/
def mkNode (name path : String) (dir : Bool) : FileNode :=
  { file_name := name, absolute_path := path, parent_folder := some "/",
    is_dir := dir, matches_filters := true, file_size := "0 B",
    created_at := "2024-01-01 00:00:00", modified_at := "2024-01-01 00:00:00",
    accessed_at := "2024-01-01 00:00:00" }

def rootDir : FileNode := mkNode "root" "/root" true

def subDir : FileNode := mkNode "sub" "/root/sub" true

def codeFile : FileNode := mkNode "f.rs" "/root/f.rs" false

def readmeNode : FileNode := mkNode "README.md" "/root/README.md" false

def otherNode : FileNode := mkNode "other.txt" "/root/other.txt" false

def fileB : FileNode := mkNode "b.txt" "/d/b.txt" false

def dirA : FileNode := mkNode "A" "/d/A" true

def fileA : FileNode := mkNode "a.txt" "/d/a.txt" false

/-- A listing with two per-entry build failures among three good entries. -/
def goodEntries : List DirEntryOutcome :=
  [.node fileB, .buildErr .permissionDenied, .node dirA,
   .buildErr .other, .node fileA]

/-- A listing whose iterator fails after two good entries were built. -/
def truncEntries : List DirEntryOutcome :=
  [.node fileB, .node dirA, .entryErr, .node fileA]

/-- Oracle: every directory empty, every file read and every node build
fails. -/
def baseFs : Fs :=
  { raw_read_dir := fun _ => .ok []
    read_to_string := fun _ => .error { kind := .notFound }
    from_relative_path := fun _ => .error { kind := .permissionDenied } }

/-- Oracle serving `goodEntries` for `/d`. -/
def listFs : Fs :=
  { baseFs with raw_read_dir := fun p =>
      if p = "/d" then .ok goodEntries else .ok [] }

/-- Oracle serving `truncEntries` for `/d`. -/
def truncFs : Fs :=
  { baseFs with raw_read_dir := fun p =>
      if p = "/d" then .ok truncEntries else .ok [] }

/-- A state in Viewing mode: a file is open, its type inferred, and the
children of `/root` listed (the open file is child 1). -/
def stViewing : FileExplorerApp :=
  { opened_dir := rootDir
    opened_file := some codeFile
    opened_file_contents := .ok "fn main() \x7b\x7d"
    opened_file_type := some "rs"
    files := [subDir, codeFile, readmeNode, otherNode]
    filters := { file_name_search := "x" }
    file_info_modal_node := none
    file_info_modal_open := false }

/-- `stViewing` with the info modal showing a node. -/
def stModal : FileExplorerApp :=
  { stViewing with file_info_modal_node := some codeFile }

/-- An empty debounce scheduler. -/
def d0 : SchedState :=
  { app_handle := none, pending := [], next_id := 0, fired := [] }


/-! ### Properties of the comparator -/

theorem lexLE_cons_iff {a b : Char} {as bs : List Char} :
    lexLE (a :: as) (b :: bs) = true ↔ a < b ∨ (a = b ∧ lexLE as bs = true) := by
  by_cases hab : a < b
  · simp [lexLE, hab]
  · by_cases hba : b < a
    · have hne : a ≠ b := fun h => absurd (h ▸ hba) (lt_irrefl a)
      simp [lexLE, hab, hba, hne]
    · have heq : a = b := le_antisymm (not_lt.mp hba) (not_lt.mp hab)
      simp [lexLE, hab, hba, heq]

theorem lexLE_total : ∀ as bs : List Char, lexLE as bs = true ∨ lexLE bs as = true
  | [], _ => Or.inl rfl
  | _ :: _, [] => Or.inr rfl
  | a :: as, b :: bs => by
    rcases lt_trichotomy a b with h | h | h
    · exact Or.inl (lexLE_cons_iff.mpr (Or.inl h))
    · rcases lexLE_total as bs with ih | ih
      · exact Or.inl (lexLE_cons_iff.mpr (Or.inr ⟨h, ih⟩))
      · exact Or.inr (lexLE_cons_iff.mpr (Or.inr ⟨h.symm, ih⟩))
    · exact Or.inr (lexLE_cons_iff.mpr (Or.inl h))

theorem lexLE_trans : ∀ as bs cs : List Char,
    lexLE as bs = true → lexLE bs cs = true → lexLE as cs = true
  | [], _, _, _, _ => rfl
  | _ :: _, [], _, h1, _ => by simp [lexLE] at h1
  | _ :: _, _ :: _, [], _, h2 => by simp [lexLE] at h2
  | a :: as, b :: bs, c :: cs, h1, h2 => by
    rcases lexLE_cons_iff.mp h1 with hab | ⟨hab, h1'⟩ <;>
      rcases lexLE_cons_iff.mp h2 with hbc | ⟨hbc, h2'⟩
    · exact lexLE_cons_iff.mpr (Or.inl (lt_trans hab hbc))
    · exact lexLE_cons_iff.mpr (Or.inl (hbc ▸ hab))
    · exact lexLE_cons_iff.mpr (Or.inl (hab ▸ hbc))
    · exact lexLE_cons_iff.mpr (Or.inr ⟨hab.trans hbc, lexLE_trans as bs cs h1' h2'⟩)

instance : IsTotal FileNode rle where
  total a b := by
    cases ha : a.is_dir <;> cases hb : b.is_dir <;>
      simp [rle, nodeLE, ha, hb] <;> exact lexLE_total _ _

instance : IsTrans FileNode rle where
  trans a b c hab hbc := by
    cases ha : a.is_dir <;> cases hb : b.is_dir <;> cases hc : c.is_dir <;>
      simp [rle, nodeLE, ha, hb, hc] at hab hbc ⊢ <;>
      exact lexLE_trans _ _ _ hab hbc

theorem equiv_not_lt {x k y : FileNode} (hx : equivB x k = true)
    (hy : equivB y k = true) : rle x y := by
  simp only [equivB, Bool.and_eq_true] at hx hy
  exact IsTrans.trans x k y hx.1 hy.2

theorem filter_orderedInsert_of_equiv (k x : FileNode)
    (hx : equivB x k = true) :
    ∀ l : List FileNode,
      (List.orderedInsert rle x l).filter (fun y => equivB y k) =
        x :: l.filter (fun y => equivB y k)
  | [] => by simp [hx]
  | y :: ys => by
    by_cases hxy : rle x y
    · simp [List.orderedInsert, hxy, hx]
    · have hy : equivB y k = false := by
        cases hyk : equivB y k
        · rfl
        · exact absurd (equiv_not_lt hx hyk) hxy
      simp [List.orderedInsert, hxy, hy,
        filter_orderedInsert_of_equiv k x hx ys]

theorem filter_orderedInsert_of_not_equiv (k x : FileNode)
    (hx : equivB x k = false) :
    ∀ l : List FileNode,
      (List.orderedInsert rle x l).filter (fun y => equivB y k) =
        l.filter (fun y => equivB y k)
  | [] => by simp [hx]
  | y :: ys => by
    by_cases hxy : rle x y
    · simp [List.orderedInsert, hxy, hx]
    · by_cases hy : equivB y k = true <;>
        simp [List.orderedInsert, hxy, hy, hx,
          filter_orderedInsert_of_not_equiv k x hx ys]

theorem sortNodes_cons (x : FileNode) (xs : List FileNode) :
    sortNodes (x :: xs) = List.orderedInsert rle x (sortNodes xs) := rfl

/-- Stability of the modelled sort: the elements the comparator considers
equal to any given key keep their input order. -/
theorem sortNodes_stable (k : FileNode) :
    ∀ l : List FileNode,
      (sortNodes l).filter (fun y => equivB y k) =
        l.filter (fun y => equivB y k)
  | [] => rfl
  | x :: xs => by
    have ih := sortNodes_stable k xs
    rw [sortNodes_cons]
    by_cases hx : equivB x k = true
    · rw [filter_orderedInsert_of_equiv k x hx, ih]
      exact (List.filter_cons_of_pos (p := fun y => equivB y k) hx).symm
    · have hx' : equivB x k = false := eq_false_of_ne_true hx
      rw [filter_orderedInsert_of_not_equiv k x hx', ih]
      exact (List.filter_cons_of_neg (p := fun y => equivB y k)
        (by simp [hx'])).symm

/-! ### Properties of the listing loop -/

theorem collectNodes_complete : ∀ entries : List DirEntryOutcome,
    noEntryErr entries = true →
    collectNodes entries = (builtNodes entries, true)
  | [], _ => rfl
  | .entryErr :: _, h => by simp [noEntryErr] at h
  | .buildErr k :: rest, h => by
    have hr : noEntryErr rest = true := by
      simpa [noEntryErr] using h
    simp [collectNodes, builtNodes, collectNodes_complete rest hr]
  | .node n :: rest, h => by
    have hr : noEntryErr rest = true := by
      simpa [noEntryErr] using h
    simp [collectNodes, builtNodes, collectNodes_complete rest hr]

theorem subMatch_nil : ∀ l : List Char, subMatch [] l = true
  | [] => rfl
  | _ :: t => by simp [subMatch, headMatch]

/-! ### Claim C1 — opening a directory and `opened_file` -/

/-- C1 counterexample: from a state whose `opened_file` is `some codeFile`,
applying `OpenFile` on child 0 — a directory, whose listing is read
successfully — leaves `opened_file` equal to `some codeFile`, not `none`:
the `open_file` directory branch never clears `opened_file`. -/
theorem open_dir_keeps_opened_file_cex :
    stViewing.files.get? 0 = some subDir ∧
    subDir.is_dir = true ∧
    (post_update baseFs stViewing (.OpenFile 0)).map
        (fun t => t.opened_file) = some (some codeFile) ∧
    some (some codeFile) ≠
      (some (none : Option FileNode) : Option (Option FileNode)) :=
  ⟨rfl, rfl, rfl, by decide⟩

/-- C1 (amended): applying `OpenFile` on a child that is a directory leaves
`opened_file` exactly as it was (the transition does not clear it), for
every state, oracle and in-range index. -/
theorem open_dir_preserves_opened_file (fs : Fs) (s : FileExplorerApp)
    (i : Nat) (d : FileNode) (hget : s.files.get? i = some d)
    (hdir : d.is_dir = true) :
    (post_update fs s (.OpenFile i)).map (fun t => t.opened_file) =
      some s.opened_file := by
  have hpu : post_update fs s (.OpenFile i) = open_child_file fs s i := rfl
  have hoc : open_child_file fs s i = some (open_file fs s d) := by
    unfold open_child_file
    rw [hget]
  rw [hpu, hoc]
  unfold open_file
  by_cases hsp : samePath s d = true
  · simp [hsp]
  · simp only [hsp]
    simp [hdir]
    cases h : read_dir fs d.absolute_path <;> simp [h]

/-- Witness for `open_dir_preserves_opened_file` at a concrete input. -/
theorem open_dir_preserves_opened_file_witness :
    (post_update baseFs stViewing (.OpenFile 0)).map
        (fun t => t.opened_file) = some stViewing.opened_file :=
  open_dir_preserves_opened_file baseFs stViewing 0 subDir rfl rfl

/-! ### Claim C3 — `GoBack` on an unreadable parent panics -/

/-- C3: a concrete post-startup failure that terminates the program.  The
opened directory has a parent, the parent path exists as far as the state
knows, but `FileNode::from_relative_path` fails; the `GoBack` arm calls
`.expect("Could not read parent file")` on that result and panics
(modelled by `none`). -/
theorem go_back_unreadable_parent_panics :
    stViewing.opened_dir.parent_folder = some "/" ∧
    baseFs.from_relative_path "/" = .error { kind := .permissionDenied } ∧
    post_update baseFs stViewing .GoBack = none :=
  ⟨rfl, rfl, rfl⟩

/-! ### Claim C8 — re-opening the already-open file -/

/-- C8: applying `OpenFile` on a child whose `absolute_path` equals the
`absolute_path` of the currently opened file is a no-op: the whole state is
returned unchanged (the guard returns before any read). -/
theorem reopen_open_file_noop (fs : Fs) (s : FileExplorerApp) (i : Nat)
    (f n : FileNode) (hopen : s.opened_file = some f)
    (hget : s.files.get? i = some n)
    (hpath : n.absolute_path = f.absolute_path) :
    post_update fs s (.OpenFile i) = some s := by
  have hpu : post_update fs s (.OpenFile i) = open_child_file fs s i := rfl
  have hoc : open_child_file fs s i = some (open_file fs s n) := by
    unfold open_child_file
    rw [hget]
  rw [hpu, hoc]
  unfold open_file
  have hsp : samePath s n = true := by
    unfold samePath
    rw [hopen]
    simp [hpath]
  simp [hsp]

/-- Witness for `reopen_open_file_noop`: child 1 of `stViewing` is the open
file itself. -/
theorem reopen_open_file_noop_witness :
    post_update baseFs stViewing (.OpenFile 1) = some stViewing :=
  reopen_open_file_noop baseFs stViewing 1 codeFile codeFile rfl rfl rfl

/-! ### Claim C10 — unchecked indexing in `open_child_file` -/

/-- C10: `OpenFile` indexes `files` without a bounds check: an in-range
index always yields a state (no panic), an out-of-range index always
panics; `OpenContextMenu`'s guarded `files.get(index)` never panics at any
index. -/
theorem open_file_index_discipline (fs : Fs) (s : FileExplorerApp)
    (i : Nat) :
    (i < s.files.length → (post_update fs s (.OpenFile i)).isSome = true) ∧
    (s.files.length ≤ i → post_update fs s (.OpenFile i) = none) ∧
    (∀ j : Nat,
      (post_update fs s
        (.OpenContextMenu (.OpenFileInfoModal j))).isSome = true) := by
  refine ⟨?_, ?_, fun j => rfl⟩
  · intro h
    have hpu : post_update fs s (.OpenFile i) = open_child_file fs s i := rfl
    rw [hpu]
    unfold open_child_file
    rw [List.get?_eq_get h]
    rfl
  · intro h
    have hpu : post_update fs s (.OpenFile i) = open_child_file fs s i := rfl
    rw [hpu]
    unfold open_child_file
    rw [List.get?_eq_none.mpr h]

/-- Witness for `open_file_index_discipline`: on `stViewing` (4 children),
index 0 is safe and index 9 panics. -/
theorem open_file_index_discipline_witness :
    (post_update baseFs stViewing (.OpenFile 0)).isSome = true ∧
    post_update baseFs stViewing (.OpenFile 9) = none :=
  ⟨(open_file_index_discipline baseFs stViewing 0).1 (by decide),
   (open_file_index_discipline baseFs stViewing 9).2.1 (by decide)⟩

/-! ### Claim C2 — per-entry failures in `read_dir` -/

/-- C2 counterexample: an iterator-level entry failure does *not* leave the
remaining entries processed.  With the raw listing
`[node fileB, node dirA, entryErr, node fileA]`, `read_dir` returns only
the two nodes built before the error; `fileA`, which follows the bad entry,
is missing from the result. -/
theorem read_dir_entry_error_truncates_cex :
    truncFs.raw_read_dir "/d" = .ok truncEntries ∧
    read_dir truncFs "/d" = .ok [fileB, dirA] ∧
    (.node fileA) ∈ truncEntries ∧
    fileA ∉ [fileB, dirA] :=
  ⟨rfl, rfl, by decide, by decide⟩

/-- C2 (amended): `read_dir` never fails the caller — it always returns
`Ok`; a failure to open the directory itself yields an empty listing; and
when the entry iterator completes, every per-entry build failure
(`PermissionDenied` or any other kind) is skipped while all successfully
built entries are kept, in full.  (An iterator-level entry error instead
truncates the listing at that point.) -/
theorem read_dir_skips_failed_entries (fs : Fs) (path : String) :
    (∃ l, read_dir fs path = .ok l) ∧
    (∀ e, fs.raw_read_dir path = .error e → read_dir fs path = .ok []) ∧
    (∀ entries, fs.raw_read_dir path = .ok entries →
      noEntryErr entries = true →
      read_dir fs path = .ok (sortNodes (builtNodes entries))) := by
  refine ⟨?_, ?_, ?_⟩
  · cases h : fs.raw_read_dir path with
    | error e => exact ⟨[], by simp [read_dir, h]⟩
    | ok entries =>
      by_cases h2 : (collectNodes entries).2 = true
      · exact ⟨sortNodes (collectNodes entries).1, by simp [read_dir, h, h2]⟩
      · exact ⟨(collectNodes entries).1, by simp [read_dir, h, h2]⟩
  · intro e he
    simp [read_dir, he]
  · intro entries he hok
    simp [read_dir, he, collectNodes_complete entries hok]

/-- Witness for `read_dir_skips_failed_entries`: `goodEntries` holds three
good entries around two build failures; the listing keeps all three. -/
theorem read_dir_skips_failed_entries_witness :
    read_dir listFs "/d" = .ok (sortNodes (builtNodes goodEntries)) :=
  (read_dir_skips_failed_entries listFs "/d").2.2 goodEntries rfl rfl

/-! ### Claim C6 — ordering of the listing -/

/-- C6 counterexample: the returned listing is not always sorted.  When the
entry iterator fails mid-way, the Rust code returns the accumulated nodes
before reaching `sort_by`: here the result lists the file `b.txt` before
the directory `A`, so directories do not precede files. -/
theorem read_dir_unsorted_on_entry_error_cex :
    read_dir truncFs "/d" = .ok [fileB, dirA] ∧
    fileB.is_dir = false ∧
    dirA.is_dir = true ∧
    nodeLE fileB dirA = false ∧
    ¬ List.Sorted rle [fileB, dirA] := by
  refine ⟨rfl, rfl, rfl, by decide, ?_⟩
  intro hs
  have := List.rel_of_sorted_cons hs dirA (by simp)
  simp [rle] at this
  cases this.symm.trans (show nodeLE fileB dirA = false from by decide)

/-- C6 (amended): whenever the entry iterator completes without an
iterator-level error, the listing is `Ok` of the built nodes sorted so
that every directory precedes every file and each group is ordered
case-insensitively by `file_name`; the sort is a permutation of the built
nodes, it is stable (comparator-equal nodes keep their traversal order),
and the result is a function of the raw listing alone (identical inputs
give identical output). -/
theorem read_dir_sorted_on_complete_iteration (fs : Fs) (path : String)
    (entries : List DirEntryOutcome)
    (hraw : fs.raw_read_dir path = .ok entries)
    (hok : noEntryErr entries = true) :
    read_dir fs path = .ok (sortNodes (builtNodes entries)) ∧
    List.Sorted rle (sortNodes (builtNodes entries)) ∧
    (sortNodes (builtNodes entries)).Perm (builtNodes entries) ∧
    (sortNodes (builtNodes entries)).Pairwise
      (fun a b => b.is_dir = true → a.is_dir = true) ∧
    (sortNodes (builtNodes entries)).Pairwise
      (fun a b => a.is_dir = b.is_dir →
        lexLE (lowerName a) (lowerName b) = true) ∧
    (∀ k, (sortNodes (builtNodes entries)).filter (fun y => equivB y k) =
      (builtNodes entries).filter (fun y => equivB y k)) ∧
    (∀ fs2 path2, fs2.raw_read_dir path2 = fs.raw_read_dir path →
      read_dir fs2 path2 = read_dir fs path) := by
  refine ⟨?_, ?_, ?_, ?_, ?_, ?_, ?_⟩
  · simp [read_dir, hraw, collectNodes_complete entries hok]
  · exact List.sorted_insertionSort rle (builtNodes entries)
  · exact List.perm_insertionSort rle (builtNodes entries)
  · refine (List.sorted_insertionSort rle (builtNodes entries)).imp ?_
    intro a b hab hb
    by_contra ha
    have ha' : a.is_dir = false := by
      cases h : a.is_dir
      · rfl
      · exact absurd h ha
    simp [rle, nodeLE, ha', hb] at hab
  · refine (List.sorted_insertionSort rle (builtNodes entries)).imp ?_
    intro a b hab hsame
    cases ha : a.is_dir <;> cases hb : b.is_dir
    · simpa [rle, nodeLE, ha, hb] using hab
    · rw [ha, hb] at hsame; cases hsame
    · rw [ha, hb] at hsame; cases hsame
    · simpa [rle, nodeLE, ha, hb] using hab
  · intro k
    exact sortNodes_stable k (builtNodes entries)
  · intro fs2 path2 h2
    unfold read_dir
    rw [h2]

/-- Witness for `read_dir_sorted_on_complete_iteration`: the listing built
from `goodEntries` is sorted under the comparator. -/
theorem read_dir_sorted_on_complete_iteration_witness :
    List.Sorted rle (sortNodes (builtNodes goodEntries)) :=
  (read_dir_sorted_on_complete_iteration listFs "/d" goodEntries
    rfl rfl).2.1

/-! ### Claim C4 — opening a file whose read fails -/

/-- C4 counterexample: opening `README.md` (child 2) while its read fails
stores the error and sets `opened_file`, but the previously inferred file
type `some "rs"` is *not* cleared: the `Err` arm of the content match in
`open_file` leaves `opened_file_type` untouched. -/
theorem open_failing_file_stale_type_cex :
    stViewing.opened_file_type = some "rs" ∧
    baseFs.read_to_string readmeNode.absolute_path =
      .error { kind := .notFound } ∧
    (post_update baseFs stViewing (.OpenFile 2)).map
        (fun t => t.opened_file_type) = some (some "rs") ∧
    (post_update baseFs stViewing (.OpenFile 2)).map
        (fun t => t.opened_file) = some (some readmeNode) ∧
    (post_update baseFs stViewing (.OpenFile 2)).map
        (fun t => t.opened_file_contents) =
      some (.error { kind := .notFound }) :=
  ⟨rfl, rfl, rfl, rfl, rfl⟩

/-- C4 (amended): when the content read of a (not already open) file child
fails, the resulting state is exactly the old state with `opened_file` set
to the attempted node and `opened_file_contents` set to the error — the
navigation state (`opened_dir`, `files`) is unchanged, and so is the
previously inferred `opened_file_type`, which is *not* cleared. -/
theorem open_failing_file_records_error (fs : Fs) (s : FileExplorerApp)
    (i : Nat) (f : FileNode) (e : IOError)
    (hget : s.files.get? i = some f) (hfile : f.is_dir = false)
    (hnew : samePath s f = false)
    (hread : fs.read_to_string f.absolute_path = .error e) :
    post_update fs s (.OpenFile i) =
      some { s with opened_file := some f,
                    opened_file_contents := .error e } := by
  have hpu : post_update fs s (.OpenFile i) = open_child_file fs s i := rfl
  have hoc : open_child_file fs s i = some (open_file fs s f) := by
    unfold open_child_file
    rw [hget]
  rw [hpu, hoc]
  unfold open_file
  simp [hnew, hfile, hread]

/-- Witness for `open_failing_file_records_error` at a concrete input. -/
theorem open_failing_file_records_error_witness :
    post_update baseFs stViewing (.OpenFile 2) =
      some { stViewing with opened_file := some readmeNode,
                            opened_file_contents :=
                              .error { kind := .notFound } } :=
  open_failing_file_records_error baseFs stViewing 2 readmeNode
    { kind := .notFound } rfl rfl rfl rfl

/-! ### Claim C5 — `OpenInfoModal` out of range -/

/-- C5 counterexample: an out-of-range `OpenFileInfoModal` is *not* a
no-op.  On `stModal` (4 children, modal closed, `modal_node` showing
`codeFile`), index 9 sets `file_info_modal_open` from `false` to `true`
and overwrites `file_info_modal_node` from `some codeFile` to `none`. -/
theorem open_info_modal_out_of_range_cex :
    stModal.files.length ≤ 9 ∧
    stModal.file_info_modal_open = false ∧
    stModal.file_info_modal_node = some codeFile ∧
    (post_update baseFs stModal
        (.OpenContextMenu (.OpenFileInfoModal 9))).map
      (fun t => (t.file_info_modal_open, t.file_info_modal_node)) =
      some (true, none) :=
  ⟨by decide, rfl, rfl, rfl⟩

/-- C5 (amended): `OpenFileInfoModal index` always opens the modal and
stores the guarded lookup `files.get(index)`: for every index the new
state has `file_info_modal_open = true` and `file_info_modal_node =
files.get? index` (in range: the child at that index; out of range:
`none`), while children, opened file and opened directory are unchanged. -/
theorem open_info_modal_sets_lookup (fs : Fs) (s : FileExplorerApp)
    (i : Nat) :
    ((post_update fs s (.OpenContextMenu (.OpenFileInfoModal i))).map
        (fun t => (t.file_info_modal_open, t.file_info_modal_node,
          t.files, t.opened_file, t.opened_dir)) =
      some (true, s.files.get? i, s.files, s.opened_file, s.opened_dir)) ∧
    (∀ h : i < s.files.length,
      s.files.get? i = some (s.files.get ⟨i, h⟩)) ∧
    (s.files.length ≤ i → s.files.get? i = none) :=
  ⟨rfl, fun h => List.get?_eq_get h, fun h => List.get?_eq_none.mpr h⟩

/-- Witness for `open_info_modal_sets_lookup` at a concrete out-of-range
index. -/
theorem open_info_modal_sets_lookup_witness :
    stModal.files.get? 9 = none :=
  (open_info_modal_sets_lookup baseFs stModal 9).2.2 (by decide)

/-! ### Claim C7 — `SearchByFilename` recomputes `matches_filters` -/

/-- Every node matches the empty search text. -/
theorem matchesSearch_empty (f : FileNode) : matchesSearch "" f = true := by
  simp [matchesSearch, trimChars, subMatch_nil]

/-- C7: `SearchByFilename text` maps every child to the same node with
`matches_filters` recomputed as the lowercased-name containment of the
trimmed lowercased text; names (and all other node fields) are untouched;
empty text sets every `matches_filters` to `true`; and the predicate
matches `README.md` but not `other.txt` for the text `"readme"`. -/
theorem search_by_filename_filters (fs : Fs) (s : FileExplorerApp)
    (text : String) :
    ((post_update fs s (.SearchByFilename text)).map
        (fun t => t.files.map (fun f => f.matches_filters)) =
      some (s.files.map (fun f => matchesSearch text f))) ∧
    ((post_update fs s (.SearchByFilename text)).map
        (fun t => t.files.map (fun f => f.file_name)) =
      some (s.files.map (fun f => f.file_name))) ∧
    ((post_update fs s (.SearchByFilename "")).map
        (fun t => t.files.map (fun f => f.matches_filters)) =
      some (s.files.map (fun _ => true))) ∧
    ((post_update fs s (.SearchByFilename text)).map
        (fun t => (t.opened_dir, t.opened_file, t.filters)) =
      some (s.opened_dir, s.opened_file, s.filters)) ∧
    matchesSearch "readme" readmeNode = true ∧
    matchesSearch "readme" otherNode = false := by
  refine ⟨?_, ?_, ?_, rfl, by decide, by decide⟩
  · simp [post_update, List.map_map, Function.comp]
  · simp [post_update, List.map_map, Function.comp]
  · simp [post_update, List.map_map, Function.comp_def, matchesSearch_empty]

/-- Witness for `search_by_filename_filters` on a concrete state: applying
the search `"readme"` marks exactly the `README.md` child. -/
theorem search_by_filename_filters_witness :
    (post_update baseFs stViewing (.SearchByFilename "readme")).map
        (fun t => t.files.map (fun f => f.matches_filters)) =
      some (stViewing.files.map (fun f => matchesSearch "readme" f)) :=
  (search_by_filename_filters baseFs stViewing "readme").1

/-! ### Claim C9 — debounced search schedules at most one timer -/

/-- Under the scheduler invariant, `schedule` aborts whatever was pending
and leaves exactly the fresh timer in the pool. -/
theorem schedule_of_inv (d : SchedState) (text : String) (hinv : DebInv d) :
    schedule d text = { app_handle := some d.next_id,
                        pending := [(d.next_id, text)],
                        next_id := d.next_id + 1,
                        fired := d.fired } := by
  cases h : d.app_handle with
  | none =>
    have hp : d.pending = [] := by
      cases hp : d.pending with
      | nil => rfl
      | cons p l =>
        have hmem := (hinv p (by rw [hp]; exact List.mem_cons_self p l)).1
        rw [h] at hmem
        exact Option.noConfusion hmem
    simp [schedule, h, hp]
  | some hdl =>
    have hall : ∀ p ∈ d.pending, p.1 = hdl := fun p hp =>
      Option.some.inj (((hinv p hp).1).trans h)
    have hfil : List.filter (fun p => !decide (p.1 = hdl)) d.pending = [] := by
      rw [List.filter_eq_nil_iff]
      intro p hp
      simp [hall p hp]
    simp [schedule, h, hfil]

/-- The scheduler invariant is preserved by `schedule`. -/
theorem DebInv_schedule (d : SchedState) (text : String) (hinv : DebInv d) :
    DebInv (schedule d text) := by
  rw [schedule_of_inv d text hinv]
  intro p hp
  simp only [List.mem_singleton] at hp
  subst hp
  exact ⟨rfl, Nat.lt_succ_self _⟩

/-- C9: starting from any scheduler state satisfying the invariant, two
`DebouncedSearch` schedulings in a row (the second arriving before any
timer fires, i.e. within the debounce window) leave exactly one pending
timer — the second one; the invariant is preserved, the first (aborted)
timer can never fire (its elapse is a no-op), and firing the surviving
timer delivers exactly one `SearchByFilename`, carrying the second text. -/
theorem debounced_search_single_fire (d : SchedState) (t1 t2 : String)
    (hinv : DebInv d) :
    DebInv (schedule d t1) ∧
    DebInv (schedule (schedule d t1) t2) ∧
    (schedule (schedule d t1) t2).pending = [(d.next_id + 1, t2)] ∧
    fire (schedule (schedule d t1) t2) d.next_id =
      schedule (schedule d t1) t2 ∧
    (fire (schedule (schedule d t1) t2) (d.next_id + 1)).fired =
      d.fired ++ [t2] ∧
    (fire (schedule (schedule d t1) t2) (d.next_id + 1)).pending = [] := by
  have hinv1 := DebInv_schedule d t1 hinv
  have h1 := schedule_of_inv d t1 hinv
  have h2 := schedule_of_inv (schedule d t1) t2 hinv1
  have hne : d.next_id + 1 ≠ d.next_id := Nat.succ_ne_self _
  refine ⟨hinv1, DebInv_schedule _ t2 hinv1, ?_, ?_, ?_, ?_⟩
  · rw [h2, h1]
  · rw [h2, h1]
    simp [fire, List.find?_cons, hne]
  · rw [h2, h1]
    simp [fire, List.find?_cons]
  · rw [h2, h1]
    simp [fire, List.find?_cons]

/-- Witness for `debounced_search_single_fire`: from the empty scheduler,
scheduling `"a"` then `"b"` and letting the surviving timer elapse fires
exactly `SearchByFilename "b"`. -/
theorem debounced_search_single_fire_witness :
    (fire (schedule (schedule d0 "a") "b") 1).fired = [] ++ ["b"] ∧
    (fire (schedule (schedule d0 "a") "b") 1).pending = [] :=
  ⟨(debounced_search_single_fire d0 "a" "b"
      (fun p hp => absurd hp (List.not_mem_nil p))).2.2.2.2.1,
   (debounced_search_single_fire d0 "a" "b"
      (fun p hp => absurd hp (List.not_mem_nil p))).2.2.2.2.2⟩

end Explorer
